import Mathlib

/-!
# Berkeley socket example: client.c and server.c

A shallow embedding of the two programs of `09.b.BerkelySocketCCode`.

* Bytes are `Char`; a C string is a `List Char` read up to its first NUL.
* Every library call (`socket`, `connect`, `recv`, `bind`, `listen`, `signal`,
  `accept`, `send`, `close`) is an interaction with the operating system: the
  value it returns is an input of the model, and the call itself is recorded
  as an `Event` in a chronological trace.
* `client.c` is straight-line code and is embedded as one function,
  `clientMain`.  A store outside the bounds of the local array has no defined
  behaviour in C; the embedding stops there with a `Fault`.
* `server.c` loops and can be interrupted asynchronously, so it is embedded as
  a deterministic step function over program locations, driven by a list of
  inputs (library results and SIGINT deliveries).
-/

namespace BerkeleySocket

/-! ## Bytes, C strings and events -/

/-- The NUL character that terminates a C string. -/
def NUL : Char := Char.ofNat 0

/-- The characters of a C string stored in `mem`: everything before the first NUL
(what `printf("%s", mem)` prints). -/
def cstr (mem : List Char) : List Char :=
  mem.takeWhile (fun c => c != NUL)

/-- The C library `strlen`. -/
def strlen (mem : List Char) : Nat :=
  (cstr mem).length

/-- The text `printf` produces for `%i`. -/
def fmtInt (i : Int) : List Char :=
  (toString i).toList

/-- Library calls and output, as observed from outside the process. Calls carry
their arguments and, where the program receives one, the returned value. -/
inductive Event where
  | socket (ret : Int)
  | connect (fd : Int) (port : Nat) (ret : Int)
  | recv (fd : Int) (maxLen : Int) (ret : Int)
  | bind (fd : Int) (port : Nat) (ret : Int)
  | listen (fd : Int) (backlog : Nat) (ret : Int)
  | signal (signum : Int) (ret : Int)
  | accept (fd : Int) (ret : Int)
  | send (fd : Int) (data : List Char) (ret : Int)
  | close (fd : Int)
  | print (text : List Char)
  | exit (status : Int)
  deriving DecidableEq

/-- The texts printed in `trace`, in order. -/
def prints (trace : List Event) : List (List Char) :=
  trace.filterMap (fun e => match e with | .print t => some t | _ => none)

/-! ## client.c -/

namespace Client

/-- The constant `MAX_RECV_LEN` of client.c. -/
def MAX_RECV_LEN : Int := 255

/-- The constant `PORT_NUM` of client.c. -/
def PORT_NUM : Nat := 6000

/-- What the single `recv` call meets on the socket: an error, or a queue of
pending bytes (empty when the peer closed without sending). -/
inductive Incoming where
  | error
  | data (pending : List Char)
  deriving DecidableEq

/-- The operating system's `recv(fd, buf, maxLen, 0)` on a stream socket: on error it
returns -1 and leaves `buf` alone; otherwise it copies the first `maxLen` pending
bytes (all of them if there are fewer) to the start of `buf` and returns their
number. The result is the returned value and the memory of `buf` afterwards. -/
def recv (inc : Incoming) (buf : List Char) (maxLen : Int) : Int × List Char :=
  match inc with
  | .error => (-1, buf)
  | .data pending =>
    let got := pending.take maxLen.toNat
    ((got.length : Int), got ++ buf.drop got.length)

/-- The assignment `buffer[idx] = c`; `none` when `idx` is outside the array. -/
def store (buf : List Char) (idx : Int) (c : Char) : Option (List Char) :=
  if 0 ≤ idx ∧ idx < (buf.length : Int) then some (buf.set idx.toNat c) else none

/-- The line printed before connecting (client.c line 37). -/
def connectingLine : List Char :=
  "Connecting to the server...\n".toList

/-- The text of
`printf("Got a message from the server [%i bytes]:\n%s", len, buffer)`. -/
def gotMessage (len : Int) (buffer : List Char) : List Char :=
  "Got a message from the server [".toList ++ fmtInt len ++ " bytes]:\n".toList ++ cstr buffer

/-- Everything outside the program that a run of the client depends on. -/
structure Env where
  /-- value returned by `socket` -/
  socketRet : Int
  /-- value returned by `connect` -/
  connectRet : Int
  /-- what `recv` meets -/
  incoming : Incoming
  /-- contents of the uninitialised local array `buffer` -/
  garbage : Nat → Char

/-- A run of the client that reached `return`. -/
structure Run where
  /-- final value of `len` -/
  len : Int
  /-- final contents of `buffer` -/
  buffer : List Char
  /-- calls and output in order -/
  trace : List Event
  /-- value returned from `main` -/
  exitStatus : Int
  deriving DecidableEq

/-- A run of the client that left defined behaviour. -/
inductive Fault where
  | outOfBounds (idx : Int)
  deriving DecidableEq

/-- The local array `char buffer[MAX_RECV_LEN + 1]` before anything is written to it. -/
def buffer0 (env : Env) : List Char :=
  (List.range (MAX_RECV_LEN + 1).toNat).map env.garbage

/-- The function `main` of client.c. -/
def clientMain (env : Env) : Except Fault Run :=
  -- clientSocket = socket(AF_INET, SOCK_STREAM, 0);
  let clientSocket := env.socketRet
  -- printf("Connecting to the server...\n");
  -- connect(clientSocket, ...);                      (result discarded)
  -- len = recv(clientSocket, buffer, MAX_RECV_LEN, 0);
  let r := recv env.incoming (buffer0 env) MAX_RECV_LEN
  let len := r.1
  -- buffer[len] = '\0';
  match store r.2 len NUL with
  | none => .error (.outOfBounds len)
  | some buffer =>
    -- printf("Got a message from the server [%i bytes]:\n%s", len, buffer);
    -- close(clientSocket);
    -- return 0;
    .ok { len := len
          buffer := buffer
          trace := [ .socket clientSocket
                   , .print connectingLine
                   , .connect clientSocket PORT_NUM env.connectRet
                   , .recv clientSocket MAX_RECV_LEN len
                   , .print (gotMessage len buffer)
                   , .close clientSocket ]
          exitStatus := 0 }

end Client

/-! ## server.c -/

namespace Server

/-- The constant `PORT_NUM` of server.c. -/
def PORT_NUM : Nat := 6000

/-- The signal number of SIGINT. -/
def SIGINT : Int := 2

/-- The value `SIG_ERR` that `signal` returns on failure. -/
def SIG_ERR : Int := -1

/-- The string literal `msg`, with the NUL the compiler appends. -/
def msg : List Char := "Hello, Client!\n".toList ++ [NUL]

/-- The bytes handed to `send(clientSocket, msg, strlen(msg), 0)`. -/
def reply : List Char := msg.take (strlen msg)

/-- The text printed by the handler (server.c line 28). -/
def shutdownNotice : List Char := "Received SIGINT, shutting down server.\n".toList

/-- The text printed once the handler is installed (server.c line 67). -/
def runningLine : List Char := "Running the TCP server.\n".toList

/-- The text of `printf("Incoming connection from %s, replying.\n", inet_ntoa(dest.sin_addr))`,
where `peer` is the text `inet_ntoa` yields. -/
def incomingLine (peer : List Char) : List Char :=
  "Incoming connection from ".toList ++ peer ++ ", replying.\n".toList

/-- Program points of `main`: the statement executed next. -/
inductive Loc where
  | socketCall    -- line 56
  | bindCall      -- line 59
  | listenCall    -- line 62
  | signalCall    -- line 65
  | setRunning    -- line 66
  | printRunning  -- line 67
  | loopTest      -- line 71
  | acceptCall    -- line 73
  | printInfo     -- line 76
  | sendCall      -- line 79
  | closeCall     -- line 82
  deriving DecidableEq

/-- How the process ended. -/
inductive Halt where
  | returned (status : Int)   -- `return` from main
  | exited (status : Int)     -- a call of `exit`
  | killed (signum : Int)     -- default action of a signal without handler
  deriving DecidableEq

/-- The globals `running` and `serverSocket`, the locals `clientSocket` and `dest`
(as the text `inet_ntoa(dest.sin_addr)` yields), the program point, whether
`sigintHandler` is installed for SIGINT, and what has been observed so far. -/
structure State where
  loc : Loc
  halt : Option Halt
  running : Int
  serverSocket : Int
  clientSocket : Int
  dest : List Char
  handler : Bool
  trace : List Event
  deriving DecidableEq

/-- What drives one step: the value the library call at the current program point
returns (`peer` is the address `accept` stores in `dest` when it succeeds; both are
ignored by statements that use no result), or the delivery of SIGINT. -/
inductive Input where
  | ret (v : Int) (peer : List Char)
  | sigint
  deriving DecidableEq

/-- Process start: the globals are zero, the locals `clientSocket` and `dest` hold
whatever the stack holds. -/
def init (clientSocket0 : Int) (dest0 : List Char) : State :=
  { loc := .socketCall, halt := none, running := 0, serverSocket := 0
    clientSocket := clientSocket0, dest := dest0, handler := false, trace := [] }

/-- The function `sigintHandler` of server.c. -/
def sigintHandler (s : State) (sig : Int) : State :=
  if sig = SIGINT then
    -- printf("Received SIGINT, shutting down server.\n");
    let s1 : State := { s with trace := s.trace ++ [Event.print shutdownNotice] }
    -- running = 0;
    let s2 : State := { s1 with running := 0 }
    -- if (serverSocket) close(serverSocket);
    let s3 : State :=
      if s2.serverSocket ≠ 0 then
        { s2 with trace := s2.trace ++ [Event.close s2.serverSocket] }
      else s2
    -- exit(0);
    { s3 with trace := s3.trace ++ [Event.exit 0], halt := some (.exited 0) }
  else s

/-- Delivery of SIGINT: the installed handler runs, or else the default action
terminates the process. -/
def deliver (s : State) : State :=
  if s.handler then sigintHandler s SIGINT
  else { s with halt := some (.killed SIGINT) }

/-- One statement of `main`, at the current program point, with `v` (and `peer`)
the result of the library call made there. -/
def exec (s : State) (v : Int) (peer : List Char) : State :=
  match s.loc with
  | .socketCall =>
    -- serverSocket = socket(AF_INET, SOCK_STREAM, 0);
    { s with serverSocket := v, trace := s.trace ++ [Event.socket v], loc := .bindCall }
  | .bindCall =>
    -- bind(serverSocket, (struct sockaddr *)&serv, sizeof(struct sockaddr));
    { s with trace := s.trace ++ [Event.bind s.serverSocket PORT_NUM v], loc := .listenCall }
  | .listenCall =>
    -- listen(serverSocket, 5);
    { s with trace := s.trace ++ [Event.listen s.serverSocket 5 v], loc := .signalCall }
  | .signalCall =>
    -- if (signal(SIGINT, sigintHandler) != SIG_ERR) {
    if v ≠ SIG_ERR then
      { s with trace := s.trace ++ [Event.signal SIGINT v], handler := true, loc := .setRunning }
    else
      { s with trace := s.trace ++ [Event.signal SIGINT v], loc := .loopTest }
  | .setRunning =>
    -- running = 1;
    { s with running := 1, loc := .printRunning }
  | .printRunning =>
    -- printf("Running the TCP server.\n");
    { s with trace := s.trace ++ [Event.print runningLine], loc := .loopTest }
  | .loopTest =>
    -- while (running) { ... }  return 0;
    if s.running ≠ 0 then { s with loc := .acceptCall }
    else { s with halt := some (.returned 0) }
  | .acceptCall =>
    -- clientSocket = accept(serverSocket, (struct sockaddr *)&dest, &socksize);
    { s with clientSocket := v, dest := if 0 ≤ v then peer else s.dest
             trace := s.trace ++ [Event.accept s.serverSocket v], loc := .printInfo }
  | .printInfo =>
    -- printf("Incoming connection from %s, replying.\n", inet_ntoa(dest.sin_addr));
    { s with trace := s.trace ++ [Event.print (incomingLine s.dest)], loc := .sendCall }
  | .sendCall =>
    -- send(clientSocket, msg, strlen(msg), 0);
    { s with trace := s.trace ++ [Event.send s.clientSocket (msg.take (strlen msg)) v]
             loc := .closeCall }
  | .closeCall =>
    -- close(clientSocket);
    { s with trace := s.trace ++ [Event.close s.clientSocket], loc := .loopTest }

/-- One step of the server process. A halted process stays as it is. -/
def step (s : State) (inp : Input) : State :=
  match s.halt with
  | some _ => s
  | none =>
    match inp with
    | .sigint => deliver s
    | .ret v peer => exec s v peer

/-- The state after the given inputs. -/
def run (s : State) (inputs : List Input) : State :=
  inputs.foldl step s

/-! ### Observations on traces -/

/-- The effect of one event on the list of open accepted connections: a successful
`accept` opens the returned handle, `close` releases its argument. -/
def connEffect (conns : List Int) (e : Event) : List Int :=
  match e with
  | .accept _ ret => if 0 ≤ ret then ret :: conns else conns
  | .close fd => conns.erase fd
  | _ => conns

/-- The accepted connections that are open after the events of `trace`. -/
def openConns (trace : List Event) : List Int :=
  trace.foldl connEffect []

/-- Every `accept` in the trace is called when no accepted connection is open. -/
def AcceptsIdle (tr : List Event) : Prop :=
  ∀ i fd ret, tr[i]? = some (.accept fd ret) → openConns (tr.take i) = []

/-- The bytes that a `send` of `data` returning `k` has put on the connection. -/
def accepted (data : List Char) (k : Int) : List Char :=
  data.take k.toNat

/-- All bytes put on connection `fd` by the `send` calls of `trace`. -/
def written (fd : Int) (trace : List Event) : List Char :=
  trace.foldl (fun acc e =>
    match e with
    | .send fd1 data k => if fd1 = fd then acc ++ accepted data k else acc
    | _ => acc) []

/-- The `send` calls of `trace`, in order. -/
def sends (trace : List Event) : List Event :=
  trace.filter (fun e => match e with | .send _ _ _ => true | _ => false)

end Server

/-! ## Observations and concrete scenarios -/

namespace Client

/-- The exit status of a run, when the run reaches `return`. -/
def status (res : Except Fault Run) : Option Int :=
  match res with
  | .ok r => some r.exitStatus
  | .error _ => none

/-- The texts a run prints, in order, when the run reaches `return`. -/
def output (res : Except Fault Run) : Option (List (List Char)) :=
  match res with
  | .ok r => some (prints r.trace)
  | .error _ => none

/-- A run in which `connect` returns -1 and `recv` then returns 0 (the socket
reports end of stream). -/
def refusedEnv : Env :=
  { socketRet := 3, connectRet := -1, incoming := .data [], garbage := fun _ => 'x' }

/-- A run in which `connect` returns -1 because a signal interrupted it, the
connection is completed all the same, and `recv` returns the server's message. -/
def interruptedEnv : Env :=
  { socketRet := 3, connectRet := -1, incoming := .data Server.reply, garbage := fun _ => 'x' }

end Client

namespace Server

/-- Program points between `accept` and `close`, where `clientSocket` holds the
handle of the current iteration. -/
def Loc.serving : Loc → Bool
  | .printInfo => true
  | .sendCall => true
  | .closeCall => true
  | _ => false

/-- What holds of every trace of the server: `accept` is only called with no
accepted connection open, every `send` carries the constant reply, and at most one
accepted connection is open. -/
def TraceOk (tr : List Event) : Prop :=
  AcceptsIdle tr ∧
  (∀ fd data k, Event.send fd data k ∈ tr → data = reply) ∧
  (openConns tr).length ≤ 1

/-- The connection invariant: the trace is well-formed and, while the process runs,
the open accepted connection is exactly the handle in `clientSocket` between
`accept` and `close`, and there is none elsewhere. -/
def ConnInv (s : State) : Prop :=
  TraceOk s.trace ∧
  (s.halt = none →
    openConns s.trace =
      if s.loc.serving = true ∧ 0 ≤ s.clientSocket then [s.clientSocket] else [])

/-- What holds at each program point of a running server. -/
def LocInv (s : State) : Prop :=
  match s.loc with
  | .socketCall => s.handler = false ∧ s.running = 0
  | .bindCall => s.handler = false ∧ s.running = 0
  | .listenCall => s.handler = false ∧ s.running = 0
  | .signalCall => s.handler = false ∧ s.running = 0
  | .setRunning => s.handler = true
  | .printRunning => s.handler = true ∧ s.running ≠ 0
  | .loopTest =>
    (s.handler = true ∧ s.running ≠ 0) ∨
    (s.handler = false ∧ s.running = 0 ∧ Event.signal SIGINT SIG_ERR ∈ s.trace)
  | .acceptCall => s.handler = true ∧ s.running ≠ 0
  | .printInfo => s.handler = true ∧ s.running ≠ 0
  | .sendCall => s.handler = true ∧ s.running ≠ 0
  | .closeCall => s.handler = true ∧ s.running ≠ 0

/-- The control invariant: how the process can have ended, and what holds at each
program point while it runs. -/
def CtlInv (s : State) : Prop :=
  (∀ st, s.halt = some (.returned st) →
    st = 0 ∧ s.handler = false ∧ Event.signal SIGINT SIG_ERR ∈ s.trace) ∧
  (∀ st, s.halt = some (.exited st) →
    st = 0 ∧ s.running = 0 ∧ Event.print shutdownNotice ∈ s.trace ∧
    (s.serverSocket ≠ 0 → Event.close s.serverSocket ∈ s.trace) ∧
    Event.exit 0 ∈ s.trace) ∧
  (s.handler = false → ∀ sg v, Event.signal sg v ∈ s.trace → v = SIG_ERR) ∧
  (s.halt = none → LocInv s)

/-- One client as the loop body sees it: the handle `accept` returned, the address
text printed for it, and the value its `send` returned. -/
structure Visit where
  fd : Int
  peer : List Char
  k : Int
  deriving DecidableEq

/-- The events of one complete pass through the loop body for a client, on the
listening socket `ss`: `accept`, the line about the incoming connection, one
`send` of the constant message on the accepted handle, and `close` of that handle. -/
def served (ss : Int) (v : Visit) : List Event :=
  [ Event.accept ss v.fd, Event.print (incomingLine v.peer),
    Event.send v.fd "Hello, Client!\n".toList v.k, Event.close v.fd ]

/-- How many events of the current pass have happened at a program point. -/
def Loc.progress : Loc → Nat
  | .printInfo => 1
  | .sendCall => 2
  | .closeCall => 3
  | _ => 0

/-- Program points before the first loop test. -/
def Loc.inSetup : Loc → Bool
  | .socketCall => true
  | .bindCall => true
  | .listenCall => true
  | .signalCall => true
  | .setRunning => true
  | .printRunning => true
  | _ => false

/-- The events of `sigintHandler`, which end the trace exactly when the process
has called `exit`. -/
def shutdownEvents (s : State) : List Event :=
  match s.halt with
  | some (.exited _) =>
    if s.serverSocket ≠ 0 then
      [Event.print shutdownNotice, Event.close s.serverSocket, Event.exit 0]
    else
      [Event.print shutdownNotice, Event.exit 0]
  | _ => []

/-- Events of the start-up: the four set-up calls and the line printed once the
handler is installed. -/
def setupEvent : Event → Bool
  | .socket _ => true
  | .bind _ _ _ => true
  | .listen _ _ _ => true
  | .signal _ _ => true
  | .print t => decide (t = runningLine)
  | _ => false

/-- The bytes put on the wire by each `send` of the trace, in order. -/
def deliveries (tr : List Event) : List (List Char) :=
  tr.filterMap (fun e =>
    match e with
    | .send _ data k => some (accepted data k)
    | _ => none)

/-- The shape of every trace of the server: start-up events, then one complete pass
per client served so far, then the events of the pass in progress, then the
handler's events if the process has called `exit`. -/
def ShapeInv (s : State) : Prop :=
  ∃ (setup : List Event) (visits : List Visit) (k : Int),
    (∀ e ∈ setup, setupEvent e = true) ∧
    (s.loc.inSetup = true → visits = []) ∧
    s.trace = setup ++ visits.flatMap (served s.serverSocket)
      ++ (served s.serverSocket ⟨s.clientSocket, s.dest, k⟩).take s.loc.progress
      ++ shutdownEvents s

/-! ### Concrete runs -/

/-- The address text used in the concrete runs. -/
def loopback : List Char := "127.0.0.1".toList

/-- Start-up in which every call succeeds (`socket` returns 3), up to the first
loop test. -/
def setupOk : List Input :=
  [.ret 3 [], .ret 0 [], .ret 0 [], .ret 0 [], .ret 0 [], .ret 0 [], .ret 0 []]

/-- Start-up in which `signal` returns `SIG_ERR`, up to the first loop test. -/
def sigErrInputs : List Input :=
  [.ret 3 [], .ret 0 [], .ret 0 [], .ret SIG_ERR [], .ret 0 []]

/-- Start-up in which `bind` returns -1, up to the first loop test. -/
def bindFailInputs : List Input :=
  [.ret 3 [], .ret (-1) [], .ret 0 [], .ret 0 [], .ret 0 [], .ret 0 [], .ret 0 []]

/-- One iteration after start-up: `accept` returns handle 4 and `send` returns `k`. -/
def oneClient (k : Int) : List Input :=
  setupOk ++ [.ret 4 loopback, .ret 0 [], .ret k [], .ret 0 [], .ret 0 []]

/-- One iteration after start-up in which `accept` returns -1 (and so does `send`). -/
def acceptFailInputs : List Input :=
  setupOk ++ [.ret (-1) [], .ret 0 [], .ret (-1) [], .ret 0 [], .ret 0 []]

/-- Two clients served one after the other, then SIGINT. -/
def twoClients : List Input :=
  setupOk ++ [.ret 4 loopback, .ret 0 [], .ret 15 [], .ret 0 [], .ret 0 [],
              .ret 4 loopback, .ret 0 [], .ret 15 [], .ret 0 [], .ret 0 [], .sigint]

/-- Two clients in turn after start-up: the first `send` fails with -1 (the peer
has reset the connection), the second returns 15. -/
def resetThenOk : List Input :=
  setupOk ++ [.ret 4 loopback, .ret 0 [], .ret (-1) [], .ret 0 [], .ret 0 [],
              .ret 4 loopback, .ret 0 [], .ret 15 [], .ret 0 [], .ret 0 []]

end Server

/-! ## Results about client.c -/

namespace Client

theorem buffer0_length (env : Env) : (buffer0 env).length = 256 := by
  simp [buffer0, MAX_RECV_LEN]

theorem set_after_copied (q buf : List Char) (c : Char) (h : q.length < buf.length) :
    (q ++ buf.drop q.length).set q.length c = q ++ c :: buf.drop (q.length + 1) := by
  rw [List.set_append_right _ _ (le_refl _)]
  simp only [Nat.sub_self]
  rw [List.drop_eq_getElem_cons h]
  rfl

theorem cstr_append_nul (q rest : List Char) :
    cstr (q ++ NUL :: rest) = cstr q := by
  induction q with
  | nil => simp [cstr]
  | cons c q ih =>
    unfold cstr at ih ⊢
    by_cases hc : c = NUL
    · simp [hc]
    · simp [List.takeWhile_cons, hc, ih]

theorem cstr_nul_free (q : List Char) (h : NUL ∉ q) : cstr q = q := by
  unfold cstr
  rw [List.takeWhile_eq_self_iff]
  intro c hc
  simp
  rintro rfl
  exact h hc

/-- What `main` does when `recv` succeeds with `p` pending, whatever `socket` and
`connect` returned and whatever the stack held. -/
theorem clientMain_data (sock conn : Int) (p : List Char) (g : Nat → Char) :
    clientMain ⟨sock, conn, .data p, g⟩ = .ok
      { len := ((p.take 255).length : Int)
        buffer := p.take 255 ++ NUL ::
          (buffer0 ⟨sock, conn, .data p, g⟩).drop ((p.take 255).length + 1)
        trace := [ Event.socket sock, Event.print connectingLine,
                   Event.connect sock PORT_NUM conn,
                   Event.recv sock MAX_RECV_LEN ((p.take 255).length : Int),
                   Event.print (gotMessage ((p.take 255).length : Int) (p.take 255 ++ [NUL])),
                   Event.close sock ]
        exitStatus := 0 } := by
  have hlen : (p.take 255).length < (buffer0 ⟨sock, conn, .data p, g⟩).length := by
    rw [buffer0_length, List.length_take]; omega
  have hmax : MAX_RECV_LEN.toNat = 255 := rfl
  have hcs : ∀ rest, gotMessage ((p.take 255).length : Int) (p.take 255 ++ NUL :: rest)
      = gotMessage ((p.take 255).length : Int) (p.take 255 ++ [NUL]) := by
    intro rest; simp only [gotMessage, cstr_append_nul]
  unfold clientMain recv store
  simp only [hmax]
  rw [if_pos]
  · simp only [Int.toNat_ofNat, set_after_copied _ _ _ hlen, hcs]
  · refine ⟨by positivity, ?_⟩
    simp only [List.length_append, List.length_drop]
    have := buffer0_length ⟨sock, conn, .data p, g⟩
    omega

theorem gotMessage_nul_free (p : List Char) (h : NUL ∉ p) :
    gotMessage (p.length : Int) (p ++ [NUL]) =
      "Got a message from the server [".toList ++ fmtInt p.length ++ " bytes]:\n".toList ++ p := by
  simp only [gotMessage, cstr_append_nul, cstr_nul_free p h]

theorem reply_eq : Server.reply = "Hello, Client!\n".toList := by decide

/-- C1: when `recv` returns a NUL-free payload `p` shorter than the 256-byte
buffer, `len` is its length, the buffer holds `p` followed by NUL, and the text
printed is the header with that length followed by `p` unchanged; for the
server's message, whose `strlen` is 15, the client prints
"Got a message from the server [15 bytes]:\nHello, Client!\n". -/
theorem client_prints_payload (sock conn : Int) (g : Nat → Char) (p : List Char)
    (hlen : p.length < 256) (hnul : NUL ∉ p) :
    (∃ r, clientMain ⟨sock, conn, .data p, g⟩ = .ok r ∧
        r.len = (p.length : Int) ∧ r.buffer.length = 256 ∧
        r.buffer.take (p.length + 1) = p ++ [NUL] ∧
        prints r.trace = [connectingLine,
          "Got a message from the server [".toList ++ fmtInt p.length
            ++ " bytes]:\n".toList ++ p]) ∧
    (strlen Server.msg = 15 ∧ Server.reply = "Hello, Client!\n".toList ∧
      ∃ r, clientMain ⟨sock, conn, .data Server.reply, g⟩ = .ok r ∧
        r.len = 15 ∧ r.buffer.take 16 = "Hello, Client!\n".toList ++ [NUL] ∧
        r.trace = [ Event.socket sock, Event.print "Connecting to the server...\n".toList,
          Event.connect sock 6000 conn, Event.recv sock 255 15,
          Event.print "Got a message from the server [15 bytes]:\nHello, Client!\n".toList,
          Event.close sock ]) := by
  have key : ∀ q : List Char, q.length < 256 → NUL ∉ q →
      ∃ r, clientMain ⟨sock, conn, .data q, g⟩ = .ok r ∧
        r.len = (q.length : Int) ∧ r.buffer.length = 256 ∧
        r.buffer.take (q.length + 1) = q ++ [NUL] ∧
        r.trace = [ Event.socket sock, Event.print connectingLine,
          Event.connect sock PORT_NUM conn, Event.recv sock MAX_RECV_LEN (q.length : Int),
          Event.print ("Got a message from the server [".toList ++ fmtInt q.length
            ++ " bytes]:\n".toList ++ q), Event.close sock ] := by
    intro q hq hn
    have ht : q.take 255 = q := List.take_of_length_le (by omega)
    refine ⟨_, clientMain_data sock conn q g, ?_⟩
    simp only [ht]
    have hb := buffer0_length ⟨sock, conn, .data q, g⟩
    refine ⟨trivial, ?_, ?_, ?_⟩
    · simp only [List.length_append, List.length_cons, List.length_drop, hb]; omega
    · rw [show q ++ NUL :: List.drop (q.length + 1) (buffer0 ⟨sock, conn, .data q, g⟩)
          = (q ++ [NUL]) ++ List.drop (q.length + 1) (buffer0 ⟨sock, conn, .data q, g⟩) by simp]
      rw [List.take_left' (by simp)]
    · rw [gotMessage_nul_free q hn]
  refine ⟨?_, by decide, reply_eq, ?_⟩
  · obtain ⟨r, h1, h2, h3, h4, h5⟩ := key p hlen hnul
    exact ⟨r, h1, h2, h3, h4, by rw [h5]; rfl⟩
  · rw [reply_eq]
    obtain ⟨r, h1, h2, h3, h4, h5⟩ := key "Hello, Client!\n".toList (by decide) (by decide)
    exact ⟨r, h1, h2, h4, h5⟩

/-- Witness for C1 at the payload "Hi". -/
theorem client_prints_payload_witness :
    ("Hi".toList.length < 256 ∧ NUL ∉ "Hi".toList) ∧
    ((∃ r, clientMain ⟨3, 0, .data "Hi".toList, fun _ => 'x'⟩ = .ok r ∧
        r.len = ("Hi".toList.length : Int) ∧ r.buffer.length = 256 ∧
        r.buffer.take ("Hi".toList.length + 1) = "Hi".toList ++ [NUL] ∧
        prints r.trace = [connectingLine,
          "Got a message from the server [".toList ++ fmtInt "Hi".toList.length
            ++ " bytes]:\n".toList ++ "Hi".toList]) ∧
    (strlen Server.msg = 15 ∧ Server.reply = "Hello, Client!\n".toList ∧
      ∃ r, clientMain ⟨3, 0, .data Server.reply, fun _ => 'x'⟩ = .ok r ∧
        r.len = 15 ∧ r.buffer.take 16 = "Hello, Client!\n".toList ++ [NUL] ∧
        r.trace = [ Event.socket 3, Event.print "Connecting to the server...\n".toList,
          Event.connect 3 6000 0, Event.recv 3 255 15,
          Event.print "Got a message from the server [15 bytes]:\nHello, Client!\n".toList,
          Event.close 3 ])) :=
  ⟨⟨by decide, by decide⟩,
   client_prints_payload 3 0 (fun _ => 'x') "Hi".toList (by decide) (by decide)⟩

/-- C2: whatever amount of data is pending, also 256 bytes or more, a successful
`recv` gives `len = min n 255`, which is at most the capacity minus one; the memory
`recv` hands back is still the 256-byte array, the terminator store at index `len`
is inside it, the buffer then holds the first `min n 255` payload bytes, NUL at
index `len`, and its old contents behind that; and `len`, the first `len + 1` bytes
and the printed text are the same for every run with this payload. -/
theorem client_truncates_within_buffer (sock conn : Int) (g : Nat → Char) (p : List Char) :
    ∃ r, clientMain ⟨sock, conn, .data p, g⟩ = .ok r ∧
      r.len = ((min p.length 255 : Nat) : Int) ∧ r.len ≤ MAX_RECV_LEN + 1 - 1 ∧
      (recv (.data p) (buffer0 ⟨sock, conn, .data p, g⟩) MAX_RECV_LEN).2.length = 256 ∧
      store (recv (.data p) (buffer0 ⟨sock, conn, .data p, g⟩) MAX_RECV_LEN).2 r.len NUL
        = some r.buffer ∧
      r.buffer.length = 256 ∧
      r.buffer = p.take (min p.length 255) ++ NUL ::
        (buffer0 ⟨sock, conn, .data p, g⟩).drop (min p.length 255 + 1) ∧
      r.buffer[min p.length 255]? = some NUL ∧
      ∀ (sock1 conn1 : Int) (g1 : Nat → Char),
        ∃ r1, clientMain ⟨sock1, conn1, .data p, g1⟩ = .ok r1 ∧ r1.len = r.len ∧
          r1.buffer.take (min p.length 255 + 1) = r.buffer.take (min p.length 255 + 1) ∧
          prints r1.trace = prints r.trace := by
  have hb : ∀ (s c : Int) (f : Nat → Char),
      (buffer0 ⟨s, c, .data p, f⟩).length = 256 := fun s c f => buffer0_length _
  have hl : (p.take 255).length = min p.length 255 := by
    rw [List.length_take]; omega
  have ht : p.take (min p.length 255) = p.take 255 := by
    rcases Nat.le_total p.length 255 with h | h
    · rw [Nat.min_eq_left h, List.take_of_length_le (le_refl _), List.take_of_length_le h]
    · rw [Nat.min_eq_right h]
  have hm : MAX_RECV_LEN.toNat = 255 := rfl
  have hrl : (recv (.data p) (buffer0 ⟨sock, conn, .data p, g⟩) MAX_RECV_LEN).2.length
      = 256 := by
    simp only [recv, hm, List.length_append, List.length_drop, hb, hl]; omega
  have htk : ∀ rest : List Char,
      (p.take 255 ++ NUL :: rest).take (min p.length 255 + 1) = p.take 255 ++ [NUL] := by
    intro rest
    rw [show p.take 255 ++ NUL :: rest = (p.take 255 ++ [NUL]) ++ rest by simp]
    exact List.take_left' (by simp [hl])
  refine ⟨_, clientMain_data sock conn p g, ?_, ?_, hrl, ?_, ?_, ?_, ?_, ?_⟩
  · simp only [hl]
  · simp only [hl, MAX_RECV_LEN]; omega
  · have hlt : (p.take 255).length < (buffer0 ⟨sock, conn, .data p, g⟩).length := by
      rw [hb, hl]; omega
    have hin : 0 ≤ ((p.take 255).length : Int) ∧ ((p.take 255).length : Int) <
        (((recv (.data p) (buffer0 ⟨sock, conn, .data p, g⟩) MAX_RECV_LEN).2.length : Nat)
          : Int) := by
      rw [hrl, hl]; omega
    rw [store, if_pos hin]
    simp only [recv, hm, Int.toNat_ofNat, set_after_copied _ _ _ hlt]
  · simp only [List.length_append, List.length_cons, List.length_drop, hb, hl]; omega
  · simp only [ht, hl]
  · rw [← hl, List.getElem?_append_right (le_refl _)]
    simp
  · intro sock1 conn1 g1
    refine ⟨_, clientMain_data sock1 conn1 p g1, rfl, ?_, rfl⟩
    simp only [htk]

/-- C4: when `recv` returns 0 the client takes the normal path: `len` is 0,
the terminator is stored at index 0, the header is printed with a count of 0 and
nothing after it, the socket is closed and `main` returns 0. -/
theorem client_empty_message (sock conn : Int) (g : Nat → Char) :
    ∃ r, clientMain ⟨sock, conn, .data [], g⟩ = .ok r ∧
      r.len = 0 ∧
      r.buffer = NUL :: (buffer0 ⟨sock, conn, .data [], g⟩).drop 1 ∧
      r.trace = [ Event.socket sock, Event.print "Connecting to the server...\n".toList,
        Event.connect sock 6000 conn, Event.recv sock 255 0,
        Event.print "Got a message from the server [0 bytes]:\n".toList,
        Event.close sock ] ∧
      r.exitStatus = 0 :=
  ⟨_, clientMain_data sock conn [] g, rfl, rfl, rfl, rfl⟩

/-- C3 (as stated, refuted): with `connect` returning -1 and `recv` then returning
0, the client still returns status 0, after printing the header with 0 bytes; with
`connect` returning -1 and `recv` returning the server's message, it returns
status 0 after printing the message body. -/
theorem client_exit_zero_after_failed_connect :
    refusedEnv.connectRet = -1 ∧
    status (clientMain refusedEnv) = some 0 ∧
    output (clientMain refusedEnv) =
      some [ "Connecting to the server...\n".toList,
             "Got a message from the server [0 bytes]:\n".toList ] ∧
    interruptedEnv.connectRet = -1 ∧
    status (clientMain interruptedEnv) = some 0 ∧
    output (clientMain interruptedEnv) =
      some [ "Connecting to the server...\n".toList,
             "Got a message from the server [15 bytes]:\nHello, Client!\n".toList ] := by
  refine ⟨rfl, ?_, ?_, rfl, ?_, ?_⟩
  · rw [refusedEnv, clientMain_data]; rfl
  · rw [refusedEnv, clientMain_data]; rfl
  · rw [interruptedEnv, clientMain_data]; rfl
  · rw [interruptedEnv, clientMain_data, reply_eq]; rfl

/-- C3 (amended): whatever `connect` returns, -1 included, when `recv` returns a
count the client runs to `return 0`: the exit status is 0, the `connect` result
only shows in the recorded call, and the client prints the header with the count
followed by the bytes `recv` stored, up to the first NUL. -/
theorem client_exit_status_ignores_connect (sock conn : Int) (g : Nat → Char)
    (p : List Char) :
    ∃ r, clientMain ⟨sock, conn, .data p, g⟩ = .ok r ∧
      r.exitStatus = 0 ∧
      r.trace = [ Event.socket sock, Event.print connectingLine,
        Event.connect sock PORT_NUM conn,
        Event.recv sock MAX_RECV_LEN ((min p.length 255 : Nat) : Int),
        Event.print ("Got a message from the server [".toList
          ++ fmtInt ((min p.length 255 : Nat) : Int) ++ " bytes]:\n".toList
          ++ cstr (p.take 255)),
        Event.close sock ] := by
  have hl : (p.take 255).length = min p.length 255 := by
    rw [List.length_take]; omega
  refine ⟨_, clientMain_data sock conn p g, rfl, ?_⟩
  simp only [hl, gotMessage, cstr_append_nul]

/-- C10 (the code at the failing input): when `recv` returns -1, `len` is -1, the
store `buffer[len]` is outside the 256-byte array, and the run has no defined
continuation. -/
theorem client_terminator_out_of_bounds_on_recv_error (sock conn : Int)
    (g : Nat → Char) :
    (recv .error (buffer0 ⟨sock, conn, .error, g⟩) MAX_RECV_LEN).1 = -1 ∧
    ¬ (0 ≤ (recv .error (buffer0 ⟨sock, conn, .error, g⟩) MAX_RECV_LEN).1) ∧
    store (buffer0 ⟨sock, conn, .error, g⟩) (-1) NUL = none ∧
    clientMain ⟨sock, conn, .error, g⟩ = .error (.outOfBounds (-1)) := by
  refine ⟨rfl, by simp [recv], by simp [store], ?_⟩
  simp [clientMain, recv, store]

end Client

/-! ## Results about server.c -/

namespace Server

theorem openConns_snoc (t : List Event) (e : Event) :
    openConns (t ++ [e]) = connEffect (openConns t) e := by
  simp [openConns, List.foldl_append]

theorem acceptsIdle_snoc (t : List Event) (e : Event) (h : AcceptsIdle t)
    (ha : ∀ fd r, e = Event.accept fd r → openConns t = []) :
    AcceptsIdle (t ++ [e]) := by
  intro i fd r hi
  rcases Nat.lt_trichotomy i t.length with hlt | heq | hgt
  · rw [List.getElem?_append_left hlt] at hi
    rw [List.take_append_of_le_length (le_of_lt hlt)]
    exact h i fd r hi
  · subst heq
    rw [List.getElem?_append_right (le_refl _)] at hi
    simp at hi
    rw [List.take_left']
    · exact ha fd r hi
    · rfl
  · rw [List.getElem?_append_right (le_of_lt hgt)] at hi
    have : i - t.length ≠ 0 := by omega
    obtain ⟨j, hj⟩ := Nat.exists_eq_succ_of_ne_zero this
    rw [hj] at hi
    simp at hi

theorem traceOk_snoc (t : List Event) (e : Event) (h : TraceOk t)
    (ha : ∀ fd r, e = Event.accept fd r → openConns t = [])
    (hs : ∀ fd data k, e = Event.send fd data k → data = reply) :
    TraceOk (t ++ [e]) := by
  obtain ⟨h1, h2, h3⟩ := h
  refine ⟨acceptsIdle_snoc t e h1 ha, ?_, ?_⟩
  · intro fd data k hm
    rcases List.mem_append.mp hm with hm | hm
    · exact h2 fd data k hm
    · exact hs fd data k (List.mem_singleton.mp hm).symm
  · rw [openConns_snoc]
    cases e with
    | accept fd r =>
      have := ha fd r rfl
      simp only [connEffect, this]
      split <;> simp
    | close fd =>
      simp only [connEffect]
      exact le_trans (List.length_erase_le _ _) h3
    | _ => simpa [connEffect] using h3

theorem traceOk_nil : TraceOk [] := by
  refine ⟨?_, ?_, ?_⟩
  · intro i fd r hi; simp at hi
  · intro fd data k hm; simp at hm
  · simp [openConns]

end Server

namespace Server

theorem reply_def : msg.take (strlen msg) = reply := rfl

theorem connInv_exec (s : State) (v : Int) (peer : List Char) (hh : s.halt = none)
    (h : ConnInv s) : ConnInv (exec s v peer) := by
  obtain ⟨ht, hl⟩ := h
  have ho := hl hh
  unfold exec
  cases hloc : s.loc <;> simp only [hloc, Loc.serving] at ho ⊢
  case socketCall =>
    refine ⟨traceOk_snoc _ _ ht (fun _ _ h => by cases h) (fun _ _ _ h => by cases h), ?_⟩
    intro _; simpa [openConns_snoc, connEffect, Loc.serving] using ho
  case bindCall =>
    refine ⟨traceOk_snoc _ _ ht (fun _ _ h => by cases h) (fun _ _ _ h => by cases h), ?_⟩
    intro _; simpa [openConns_snoc, connEffect, Loc.serving] using ho
  case listenCall =>
    refine ⟨traceOk_snoc _ _ ht (fun _ _ h => by cases h) (fun _ _ _ h => by cases h), ?_⟩
    intro _; simpa [openConns_snoc, connEffect, Loc.serving] using ho
  case signalCall =>
    split
    · refine ⟨traceOk_snoc _ _ ht (fun _ _ h => by cases h) (fun _ _ _ h => by cases h), ?_⟩
      intro _; simpa [openConns_snoc, connEffect, Loc.serving] using ho
    · refine ⟨traceOk_snoc _ _ ht (fun _ _ h => by cases h) (fun _ _ _ h => by cases h), ?_⟩
      intro _; simpa [openConns_snoc, connEffect, Loc.serving] using ho
  case setRunning =>
    refine ⟨ht, ?_⟩
    intro _; simpa [Loc.serving] using ho
  case printRunning =>
    refine ⟨traceOk_snoc _ _ ht (fun _ _ h => by cases h) (fun _ _ _ h => by cases h), ?_⟩
    intro _; simpa [openConns_snoc, connEffect, Loc.serving] using ho
  case loopTest =>
    split
    · refine ⟨ht, ?_⟩
      intro _; simpa [Loc.serving] using ho
    · refine ⟨ht, ?_⟩
      intro hc; cases hc
  case acceptCall =>
    have ho2 : openConns s.trace = [] := by simpa using ho
    refine ⟨traceOk_snoc _ _ ht (fun _ _ _ => ho2) (fun _ _ _ h => by cases h), ?_⟩
    intro _
    simp [openConns_snoc, connEffect, Loc.serving, ho2]
  case printInfo =>
    refine ⟨traceOk_snoc _ _ ht (fun _ _ h => by cases h) (fun _ _ _ h => by cases h), ?_⟩
    intro _; simpa [openConns_snoc, connEffect, Loc.serving] using ho
  case sendCall =>
    refine ⟨traceOk_snoc _ _ ht (fun _ _ h => by cases h) ?_, ?_⟩
    · intro fd data k h
      injection h with _ h2 _
      rw [← h2]; rfl
    · intro _; simpa [openConns_snoc, connEffect, Loc.serving] using ho
  case closeCall =>
    refine ⟨traceOk_snoc _ _ ht (fun _ _ h => by cases h) (fun _ _ _ h => by cases h), ?_⟩
    intro _
    simp only [openConns_snoc, connEffect, Loc.serving, ho]
    split <;> simp

theorem connInv_deliver (s : State) (h : ConnInv s) : ConnInv (deliver s) := by
  obtain ⟨ht, _⟩ := h
  unfold deliver
  split
  · unfold sigintHandler
    simp only [if_true]
    have h1 : TraceOk (s.trace ++ [Event.print shutdownNotice]) :=
      traceOk_snoc _ _ ht (fun _ _ h => by cases h) (fun _ _ _ h => by cases h)
    split
    · refine ⟨traceOk_snoc _ _ (traceOk_snoc _ _ h1 (fun _ _ h => by cases h)
        (fun _ _ _ h => by cases h)) (fun _ _ h => by cases h) (fun _ _ _ h => by cases h), ?_⟩
      intro hc; cases hc
    · refine ⟨traceOk_snoc _ _ h1 (fun _ _ h => by cases h) (fun _ _ _ h => by cases h), ?_⟩
      intro hc; cases hc
  · refine ⟨ht, ?_⟩
    intro hc; cases hc

theorem connInv_step (s : State) (inp : Input) (h : ConnInv s) : ConnInv (step s inp) := by
  unfold step
  cases hh : s.halt with
  | some x => exact h
  | none =>
    cases inp with
    | sigint => exact connInv_deliver s h
    | ret v peer => exact connInv_exec s v peer hh h

theorem connInv_init (c : Int) (d : List Char) : ConnInv (init c d) :=
  ⟨traceOk_nil, fun _ => by simp [init, openConns, Loc.serving]⟩

theorem connInv_run (inputs : List Input) (s : State) (h : ConnInv s) :
    ConnInv (run s inputs) := by
  induction inputs generalizing s with
  | nil => exact h
  | cons inp rest ih => exact ih (step s inp) (connInv_step s inp h)

end Server

namespace Server

theorem ctlInv_exec (s : State) (v : Int) (peer : List Char) (hh : s.halt = none)
    (h : CtlInv s) : CtlInv (exec s v peer) := by
  obtain ⟨h1, h2, h3, h4⟩ := h
  have hl := h4 hh
  unfold LocInv at hl
  unfold exec
  cases hloc : s.loc <;> simp only [hloc] at hl ⊢
  case signalCall =>
    split
    · simp_all [CtlInv, LocInv]
    · simp_all [CtlInv, LocInv]
      rintro sg w (hm | ⟨_, hw⟩)
      · exact h3 sg w hm
      · exact hw
  case loopTest =>
    split
    · simp_all [CtlInv, LocInv]
    · simp_all [CtlInv, LocInv]
      exact h3
  all_goals simp_all [CtlInv, LocInv]
  all_goals assumption

theorem ctlInv_deliver (s : State) (h : CtlInv s) :
    CtlInv (deliver s) := by
  obtain ⟨h1, h2, h3, h4⟩ := h
  unfold deliver
  split
  · unfold sigintHandler
    simp only [if_true]
    split
    · simp_all [CtlInv]
    · simp_all [CtlInv]
  · simp_all [CtlInv]
    exact h3

theorem ctlInv_step (s : State) (inp : Input) (h : CtlInv s) : CtlInv (step s inp) := by
  unfold step
  cases hh : s.halt with
  | some x => exact h
  | none =>
    cases inp with
    | sigint => exact ctlInv_deliver s h
    | ret v peer => exact ctlInv_exec s v peer hh h

theorem ctlInv_init (c : Int) (d : List Char) : CtlInv (init c d) := by
  simp [CtlInv, LocInv, init]

theorem ctlInv_run (inputs : List Input) (s : State) (h : CtlInv s) :
    CtlInv (run s inputs) := by
  induction inputs generalizing s with
  | nil => exact h
  | cons inp rest ih => exact ih (step s inp) (ctlInv_step s inp h)

/-- Without a delivery of SIGINT, `exit` is not called. -/
theorem run_not_exited (inputs : List Input) (s : State)
    (hs : ∀ st, s.halt ≠ some (.exited st)) (hi : Input.sigint ∉ inputs) :
    ∀ st, (run s inputs).halt ≠ some (.exited st) := by
  induction inputs generalizing s with
  | nil => exact hs
  | cons inp rest ih =>
    have hne : inp ≠ Input.sigint := fun h => hi (h ▸ List.mem_cons_self _ _)
    have hr : Input.sigint ∉ rest := fun h => hi (List.mem_cons_of_mem _ h)
    refine ih (step s inp) ?_ hr
    unfold step
    cases hh : s.halt with
    | some x => simpa [hh] using hs
    | none =>
      cases inp with
      | sigint => exact absurd rfl hne
      | ret v peer =>
        intro st
        simp only [exec]
        cases s.loc <;> simp only [hh] <;> (try split) <;> simp [hh]

end Server

namespace Server

theorem shapeInv_init (c : Int) (d : List Char) : ShapeInv (init c d) :=
  ⟨[], [], 0, by simp, by simp, by simp [init, Loc.progress, shutdownEvents]⟩

theorem setupEvent_snoc (setup : List Event) (e : Event)
    (h1 : ∀ x ∈ setup, setupEvent x = true) (he : setupEvent e = true) :
    ∀ x ∈ setup ++ [e], setupEvent x = true := by
  intro x hx
  rcases List.mem_append.mp hx with hx | hx
  · exact h1 x hx
  · rw [List.mem_singleton.mp hx]; exact he

theorem sent_literal : msg.take (strlen msg) = "Hello, Client!\n".toList := by decide

theorem shapeInv_exec (s : State) (v : Int) (peer : List Char) (hh : s.halt = none)
    (h : ShapeInv s) : ShapeInv (exec s v peer) := by
  obtain ⟨setup, visits, k, h1, h2, h3⟩ := h
  unfold exec
  cases hloc : s.loc <;>
    simp only [hloc, Loc.progress, Loc.inSetup, shutdownEvents, hh, forall_const,
      List.take_zero, List.append_nil] at h2 h3 ⊢
  case socketCall =>
    subst h2
    exact ⟨setup ++ [Event.socket v], [], 0, setupEvent_snoc _ _ h1 rfl, fun _ => rfl,
      by simp [h3, Loc.progress, shutdownEvents]⟩
  case bindCall =>
    subst h2
    exact ⟨setup ++ [Event.bind s.serverSocket PORT_NUM v], [], 0,
      setupEvent_snoc _ _ h1 rfl, fun _ => rfl, by simp [h3, Loc.progress, shutdownEvents]⟩
  case listenCall =>
    subst h2
    exact ⟨setup ++ [Event.listen s.serverSocket 5 v], [], 0,
      setupEvent_snoc _ _ h1 rfl, fun _ => rfl, by simp [h3, Loc.progress, shutdownEvents]⟩
  case signalCall =>
    subst h2
    split
    · exact ⟨setup ++ [Event.signal SIGINT v], [], 0,
        setupEvent_snoc _ _ h1 rfl, fun _ => rfl, by simp [h3, Loc.progress, shutdownEvents]⟩
    · exact ⟨setup ++ [Event.signal SIGINT v], [], 0,
        setupEvent_snoc _ _ h1 rfl, fun _ => rfl, by simp [h3, Loc.progress, shutdownEvents]⟩
  case setRunning =>
    subst h2
    exact ⟨setup, [], 0, h1, fun _ => rfl, by simp [h3, Loc.progress, shutdownEvents]⟩
  case printRunning =>
    subst h2
    exact ⟨setup ++ [Event.print runningLine], [], 0,
      setupEvent_snoc _ _ h1 (by simp [setupEvent]), fun _ => rfl,
      by simp [h3, Loc.progress, shutdownEvents]⟩
  case loopTest =>
    split
    · exact ⟨setup, visits, k, h1, by simp [Loc.inSetup],
        by simp [h3, Loc.progress, shutdownEvents]⟩
    · exact ⟨setup, visits, k, h1, by simp [Loc.inSetup],
        by simp [h3, Loc.progress, shutdownEvents]⟩
  case acceptCall =>
    exact ⟨setup, visits, k, h1, by simp [Loc.inSetup],
      by simp [h3, Loc.progress, shutdownEvents, served]⟩
  case printInfo =>
    exact ⟨setup, visits, k, h1, by simp [Loc.inSetup],
      by simp [h3, Loc.progress, shutdownEvents, served]⟩
  case sendCall =>
    exact ⟨setup, visits, v, h1, by simp [Loc.inSetup],
      by simp [h3, Loc.progress, shutdownEvents, served, sent_literal]⟩
  case closeCall =>
    exact ⟨setup, visits ++ [⟨s.clientSocket, s.dest, k⟩], k, h1, by simp [Loc.inSetup],
      by simp [h3, Loc.progress, shutdownEvents, served, List.flatMap_append]⟩

theorem shapeInv_deliver (s : State) (hh : s.halt = none) (h : ShapeInv s) :
    ShapeInv (deliver s) := by
  obtain ⟨setup, visits, k, h1, h2, h3⟩ := h
  simp only [shutdownEvents, hh, List.append_nil] at h3
  unfold deliver
  split
  · unfold sigintHandler
    simp only [if_true]
    split
    · rename_i hne
      refine ⟨setup, visits, k, h1, h2, ?_⟩
      simp only [ne_eq] at hne
      simp [h3, shutdownEvents, hne]
    · rename_i hne
      refine ⟨setup, visits, k, h1, h2, ?_⟩
      simp only [ne_eq, not_not] at hne
      simp [h3, shutdownEvents, hne]
  · exact ⟨setup, visits, k, h1, h2, by simp [h3, shutdownEvents]⟩

theorem shapeInv_step (s : State) (inp : Input) (h : ShapeInv s) :
    ShapeInv (step s inp) := by
  unfold step
  cases hh : s.halt with
  | some x => exact h
  | none =>
    cases inp with
    | sigint => exact shapeInv_deliver s hh h
    | ret v peer => exact shapeInv_exec s v peer hh h

theorem shapeInv_run (inputs : List Input) (s : State) (h : ShapeInv s) :
    ShapeInv (run s inputs) := by
  induction inputs generalizing s with
  | nil => exact h
  | cons inp rest ih => exact ih (step s inp) (shapeInv_step s inp h)

end Server

namespace Server

/-- One pass through the loop body from the `accept` call, whatever the calls
return: the state at the next loop test. -/
theorem iteration_body (s : State) (hs : s.halt = none) (hl : s.loc = .acceptCall)
    (fd v k w : Int) (peer p1 p2 p3 : List Char) :
    run s [.ret fd peer, .ret v p1, .ret k p2, .ret w p3] =
      { s with
        loc := .loopTest
        clientSocket := fd
        dest := if 0 ≤ fd then peer else s.dest
        trace := s.trace ++ [ Event.accept s.serverSocket fd,
          Event.print (incomingLine (if 0 ≤ fd then peer else s.dest)),
          Event.send fd reply k, Event.close fd ] } := by
  simp [run, step, exec, hs, hl, reply]

/-- One whole iteration from the `accept` call of a running server, whatever the
calls return: the state at the next `accept` call. -/
theorem iteration_full (s : State) (hs : s.halt = none) (hl : s.loc = .acceptCall)
    (hr : s.running ≠ 0) (fd v k w x : Int) (peer p1 p2 p3 p4 : List Char) :
    run s [.ret fd peer, .ret v p1, .ret k p2, .ret w p3, .ret x p4] =
      { s with
        clientSocket := fd
        dest := if 0 ≤ fd then peer else s.dest
        trace := s.trace ++ served s.serverSocket
          ⟨fd, if 0 ≤ fd then peer else s.dest, k⟩ } := by
  have hsplit : run s [.ret fd peer, .ret v p1, .ret k p2, .ret w p3, .ret x p4] =
      step (run s [.ret fd peer, .ret v p1, .ret k p2, .ret w p3]) (.ret x p4) := rfl
  have hlit : reply = "Hello, Client!\n".toList := by decide
  rw [hsplit, iteration_body s hs hl]
  simp [step, exec, hs, hr, served, hlit, ← hl]

/-- C9 (as stated, refuted): two clients are served in turn; the first `send`
returns -1 and the second returns 15, so the first client is sent nothing and the
second the whole message, although the same message was passed to both `send`
calls and the first connection was closed before the second `accept`. -/
theorem server_consecutive_clients_differ :
    (run (init 0 []) resetThenOk).halt = none ∧
    (run (init 0 []) resetThenOk).trace =
      [ Event.socket 3, Event.bind 3 6000 0, Event.listen 3 5 0, Event.signal 2 0,
        Event.print runningLine,
        Event.accept 3 4, Event.print (incomingLine loopback),
        Event.send 4 "Hello, Client!\n".toList (-1), Event.close 4,
        Event.accept 3 4, Event.print (incomingLine loopback),
        Event.send 4 "Hello, Client!\n".toList 15, Event.close 4 ] ∧
    deliveries (run (init 0 []) resetThenOk).trace = [[], "Hello, Client!\n".toList] ∧
    ([] : List Char) ≠ "Hello, Client!\n".toList := by
  decide

/-- C9 (amended): in every reachable state of the server at most one accepted
connection is open; none is open when the server is about to call `accept`, and
every `accept` in the trace was called with none open, so the previous connection
was closed before; every `send` carries the message "Hello, Client!\n". The
whole trace is the start-up events, then for each client served so far the four
events `accept`, line about the connection, one `send` of the constant message on
the accepted handle, `close` of that handle, then the events so far of the pass in
progress, then the handler's events if it has run. From the `accept` call, any two
clients in a row are each passed the constant message in one `send` between
their `accept` and `close`, and what is put on the wire for them is the first
`k` bytes of it, `k` being what their `send` returned. -/
theorem server_serves_one_connection_at_a_time (c : Int) (d : List Char)
    (inputs : List Input) :
    (openConns (run (init c d) inputs).trace).length ≤ 1 ∧
    ((run (init c d) inputs).halt = none → (run (init c d) inputs).loc = .acceptCall →
      openConns (run (init c d) inputs).trace = []) ∧
    AcceptsIdle (run (init c d) inputs).trace ∧
    (∀ fd data k, Event.send fd data k ∈ (run (init c d) inputs).trace →
      data = "Hello, Client!\n".toList) ∧
    (∃ (setup : List Event) (visits : List Visit) (k : Int),
      (∀ e ∈ setup, setupEvent e = true) ∧
      (run (init c d) inputs).trace =
        setup ++ visits.flatMap (served (run (init c d) inputs).serverSocket)
          ++ (served (run (init c d) inputs).serverSocket
                ⟨(run (init c d) inputs).clientSocket, (run (init c d) inputs).dest, k⟩).take
              (run (init c d) inputs).loc.progress
          ++ shutdownEvents (run (init c d) inputs)) ∧
    ((run (init c d) inputs).halt = none → (run (init c d) inputs).loc = .acceptCall →
      ∀ (fd1 k1 fd2 k2 v1 w1 x1 v2 w2 x2 : Int)
        (peer1 peer2 p1 p2 p3 p4 q1 q2 q3 q4 : List Char),
        (run (run (init c d) inputs)
          [ .ret fd1 peer1, .ret v1 p1, .ret k1 p2, .ret w1 p3, .ret x1 p4,
            .ret fd2 peer2, .ret v2 q1, .ret k2 q2, .ret w2 q3, .ret x2 q4 ]).trace =
          (run (init c d) inputs).trace ++
            [ Event.accept (run (init c d) inputs).serverSocket fd1,
              Event.print (incomingLine
                (if 0 ≤ fd1 then peer1 else (run (init c d) inputs).dest)),
              Event.send fd1 "Hello, Client!\n".toList k1, Event.close fd1,
              Event.accept (run (init c d) inputs).serverSocket fd2,
              Event.print (incomingLine
                (if 0 ≤ fd2 then peer2
                 else if 0 ≤ fd1 then peer1 else (run (init c d) inputs).dest)),
              Event.send fd2 "Hello, Client!\n".toList k2, Event.close fd2 ] ∧
        deliveries (run (run (init c d) inputs)
          [ .ret fd1 peer1, .ret v1 p1, .ret k1 p2, .ret w1 p3, .ret x1 p4,
            .ret fd2 peer2, .ret v2 q1, .ret k2 q2, .ret w2 q3, .ret x2 q4 ]).trace =
          deliveries (run (init c d) inputs).trace ++
            [ "Hello, Client!\n".toList.take k1.toNat,
              "Hello, Client!\n".toList.take k2.toNat ]) := by
  obtain ⟨⟨h1, h2, h3⟩, h4⟩ := connInv_run inputs (init c d) (connInv_init c d)
  refine ⟨h3, ?_, h1, ?_, ?_, ?_⟩
  · intro hh hl
    have := h4 hh
    simpa [hl, Loc.serving] using this
  · intro fd data k hm
    rw [h2 fd data k hm]
    decide
  · obtain ⟨setup, visits, k, g1, _, g3⟩ := shapeInv_run inputs (init c d) (shapeInv_init c d)
    exact ⟨setup, visits, k, g1, g3⟩
  · intro hs hl fd1 k1 fd2 k2 v1 w1 x1 v2 w2 x2 peer1 peer2 p1 p2 p3 p4 q1 q2 q3 q4
    obtain ⟨_, _, _, c4⟩ := ctlInv_run inputs (init c d) (ctlInv_init c d)
    have hrun : (run (init c d) inputs).running ≠ 0 := by
      have := c4 hs
      unfold LocInv at this
      rw [hl] at this
      exact this.2
    have hcat : run (run (init c d) inputs)
        [ .ret fd1 peer1, .ret v1 p1, .ret k1 p2, .ret w1 p3, .ret x1 p4,
          .ret fd2 peer2, .ret v2 q1, .ret k2 q2, .ret w2 q3, .ret x2 q4 ] =
        run (run (run (init c d) inputs)
          [.ret fd1 peer1, .ret v1 p1, .ret k1 p2, .ret w1 p3, .ret x1 p4])
          [.ret fd2 peer2, .ret v2 q1, .ret k2 q2, .ret w2 q3, .ret x2 q4] := rfl
    have e1 := iteration_full (run (init c d) inputs) hs hl hrun
      fd1 v1 k1 w1 x1 peer1 p1 p2 p3 p4
    have e2 := iteration_full
      { run (init c d) inputs with
        clientSocket := fd1
        dest := if 0 ≤ fd1 then peer1 else (run (init c d) inputs).dest
        trace := (run (init c d) inputs).trace ++ served (run (init c d) inputs).serverSocket
          ⟨fd1, if 0 ≤ fd1 then peer1 else (run (init c d) inputs).dest, k1⟩ }
      hs hl hrun fd2 v2 k2 w2 x2 peer2 q1 q2 q3 q4
    rw [hcat, e1, e2]
    constructor
    · simp [served]
    · simp [served, deliveries, List.filterMap_append, accepted]

/-- Witness for C9: two clients served in turn, then SIGINT; and two clients in a
row after start-up, the first `send` returning -1. -/
theorem server_serves_one_connection_at_a_time_witness :
    (run (init 0 []) twoClients).trace =
      [ Event.socket 3, Event.bind 3 6000 0, Event.listen 3 5 0, Event.signal 2 0,
        Event.print runningLine,
        Event.accept 3 4, Event.print (incomingLine loopback),
        Event.send 4 "Hello, Client!\n".toList 15, Event.close 4,
        Event.accept 3 4, Event.print (incomingLine loopback),
        Event.send 4 "Hello, Client!\n".toList 15, Event.close 4,
        Event.print shutdownNotice, Event.close 3, Event.exit 0 ] ∧
    (openConns (run (init 0 []) twoClients).trace).length ≤ 1 ∧
    AcceptsIdle (run (init 0 []) twoClients).trace ∧
    ((run (init 0 []) setupOk).halt = none ∧ (run (init 0 []) setupOk).loc = .acceptCall) ∧
    deliveries (run (run (init 0 []) setupOk)
      [ .ret 4 loopback, .ret 0 [], .ret (-1) [], .ret 0 [], .ret 0 [],
        .ret 4 loopback, .ret 0 [], .ret 15 [], .ret 0 [], .ret 0 [] ]).trace =
      deliveries (run (init 0 []) setupOk).trace ++
        [ "Hello, Client!\n".toList.take (-1 : Int).toNat,
          "Hello, Client!\n".toList.take (15 : Int).toNat ] :=
  ⟨by decide,
   (server_serves_one_connection_at_a_time 0 [] twoClients).1,
   (server_serves_one_connection_at_a_time 0 [] twoClients).2.2.1,
   ⟨by decide, by decide⟩,
   ((server_serves_one_connection_at_a_time 0 [] setupOk).2.2.2.2.2 (by decide) (by decide)
      4 (-1) 4 15 0 0 0 0 0 0 loopback loopback [] [] [] [] [] [] [] []).2⟩

/-- C5 (as stated, refuted): when `signal` returns `SIG_ERR`, `main` skips the loop
and returns 0 although no SIGINT was delivered and the handler never ran. -/
theorem server_returns_zero_when_signal_fails :
    Input.sigint ∉ sigErrInputs ∧
    (run (init 0 []) sigErrInputs).halt = some (.returned 0) ∧
    (run (init 0 []) sigErrInputs).trace =
      [ Event.socket 3, Event.bind 3 6000 0, Event.listen 3 5 0, Event.signal 2 (-1) ] := by
  decide

/-- C5 (amended): the server ends with status 0 in exactly two ways. `main` returns
(always 0) only when `signal` returned `SIG_ERR`, and then it does so for every
outcome of `socket`, `bind` and `listen`, without any interrupt. `exit` is called
(always with 0) only by `sigintHandler` after a delivery of SIGINT, which has then
printed the shutdown notice, cleared `running` and closed `serverSocket` if it is
non-zero; a delivery of SIGINT to a running server with the handler installed
always ends it this way. -/
theorem server_exit_zero_paths (c : Int) (d : List Char) (inputs : List Input) :
    (∀ st, (run (init c d) inputs).halt = some (.returned st) →
      st = 0 ∧ (run (init c d) inputs).handler = false ∧
      Event.signal SIGINT SIG_ERR ∈ (run (init c d) inputs).trace ∧
      ∀ sg v, Event.signal sg v ∈ (run (init c d) inputs).trace → v = SIG_ERR) ∧
    (∀ st, (run (init c d) inputs).halt = some (.exited st) →
      st = 0 ∧ Input.sigint ∈ inputs ∧
      (run (init c d) inputs).running = 0 ∧
      Event.print shutdownNotice ∈ (run (init c d) inputs).trace ∧
      ((run (init c d) inputs).serverSocket ≠ 0 →
        Event.close (run (init c d) inputs).serverSocket ∈ (run (init c d) inputs).trace) ∧
      Event.exit 0 ∈ (run (init c d) inputs).trace) ∧
    (∀ (sock b l x : Int) (p1 p2 p3 p4 p5 : List Char),
      (run (init c d) [.ret sock p1, .ret b p2, .ret l p3, .ret SIG_ERR p4, .ret x p5]).halt
        = some (.returned 0)) ∧
    ((run (init c d) inputs).halt = none → (run (init c d) inputs).handler = true →
      (step (run (init c d) inputs) .sigint).halt = some (.exited 0)) := by
  obtain ⟨h1, h2, h3, _⟩ := ctlInv_run inputs (init c d) (ctlInv_init c d)
  refine ⟨?_, ?_, ?_, ?_⟩
  · intro st hst
    obtain ⟨a, b, e⟩ := h1 st hst
    exact ⟨a, b, e, h3 b⟩
  · intro st hst
    obtain ⟨a, b, e, f, g⟩ := h2 st hst
    refine ⟨a, ?_, b, e, f, g⟩
    by_contra hno
    exact run_not_exited inputs (init c d) (by simp [init]) hno st hst
  · intro sock b l x p1 p2 p3 p4 p5
    simp [run, step, exec, init]
  · intro hh hd
    simp only [step, hh, deliver, hd, sigintHandler]
    simp

/-- Witness for C5: the run in which `signal` fails, and the run interrupted after
two clients. -/
theorem server_exit_zero_paths_witness :
    ((run (init 0 []) sigErrInputs).halt = some (.returned 0) ∧
      Event.signal SIGINT SIG_ERR ∈ (run (init 0 []) sigErrInputs).trace) ∧
    ((run (init 0 []) twoClients).halt = some (.exited 0) ∧
      Input.sigint ∈ twoClients ∧
      Event.print shutdownNotice ∈ (run (init 0 []) twoClients).trace) :=
  ⟨⟨by decide,
    ((server_exit_zero_paths 0 [] sigErrInputs).1 0 (by decide)).2.2.1⟩,
   ⟨by decide,
    ((server_exit_zero_paths 0 [] twoClients).2.1 0 (by decide)).2.1,
    ((server_exit_zero_paths 0 [] twoClients).2.1 0 (by decide)).2.2.2.1⟩⟩

/-- C7 (as stated, refuted): with `bind` returning -1 the server goes on to call
`listen`, installs the handler and reaches the `accept` call, still running. -/
theorem server_listens_after_bind_failure :
    (run (init 0 []) bindFailInputs).halt = none ∧
    (run (init 0 []) bindFailInputs).loc = .acceptCall ∧
    (run (init 0 []) bindFailInputs).trace =
      [ Event.socket 3, Event.bind 3 6000 (-1), Event.listen 3 5 0, Event.signal 2 0,
        Event.print runningLine ] := by
  decide

/-- C7 (amended): whatever `bind` returns, -1 included, the server calls `listen`
on the same socket next and then `signal`; when `signal` succeeds it is then at the
`accept` call, running; and however the run continues, no status other than 0 is
returned from `main` or passed to `exit`. -/
theorem server_ignores_bind_result (c : Int) (d : List Char)
    (sock b l g v5 v6 v7 : Int) (p1 p2 p3 p4 p5 p6 p7 : List Char)
    (hg : g ≠ SIG_ERR) (more : List Input) :
    (run (init c d) [.ret sock p1, .ret b p2, .ret l p3, .ret g p4,
        .ret v5 p5, .ret v6 p6, .ret v7 p7]).halt = none ∧
    (run (init c d) [.ret sock p1, .ret b p2, .ret l p3, .ret g p4,
        .ret v5 p5, .ret v6 p6, .ret v7 p7]).loc = .acceptCall ∧
    (run (init c d) [.ret sock p1, .ret b p2, .ret l p3, .ret g p4,
        .ret v5 p5, .ret v6 p6, .ret v7 p7]).trace =
      [ Event.socket sock, Event.bind sock PORT_NUM b, Event.listen sock 5 l,
        Event.signal SIGINT g, Event.print runningLine ] ∧
    (∀ st, (run (init c d) ([.ret sock p1, .ret b p2, .ret l p3, .ret g p4,
        .ret v5 p5, .ret v6 p6, .ret v7 p7] ++ more)).halt = some (.returned st) ∨
      (run (init c d) ([.ret sock p1, .ret b p2, .ret l p3, .ret g p4,
        .ret v5 p5, .ret v6 p6, .ret v7 p7] ++ more)).halt = some (.exited st) → st = 0) := by
  refine ⟨?_, ?_, ?_, ?_⟩
  · simp [run, step, exec, init, hg]
  · simp [run, step, exec, init, hg]
  · simp [run, step, exec, init, hg]
  · intro st hst
    obtain ⟨h1, h2, _, _⟩ := ctlInv_run ([.ret sock p1, .ret b p2, .ret l p3, .ret g p4,
        .ret v5 p5, .ret v6 p6, .ret v7 p7] ++ more) (init c d) (ctlInv_init c d)
    rcases hst with hst | hst
    · exact (h1 st hst).1
    · exact (h2 st hst).1

/-- Witness for C7: `bind` returns -1, every other call succeeds. -/
theorem server_ignores_bind_result_witness :
    (0 : Int) ≠ SIG_ERR ∧
    (run (init 0 []) [.ret 3 [], .ret (-1) [], .ret 0 [], .ret 0 [],
        .ret 0 [], .ret 0 [], .ret 0 []]).loc = .acceptCall :=
  ⟨by decide,
   (server_ignores_bind_result 0 [] 3 (-1) 0 0 0 0 0 [] [] [] [] [] [] [] (by decide) []).2.1⟩

theorem written_append (fd : Int) (t u : List Event) :
    written fd (t ++ u) = written fd t ++ written fd u := by
  induction u using List.reverseRecOn with
  | nil => simp [written]
  | append_singleton u e ih =>
    rw [← List.append_assoc]
    have hsnoc : ∀ w : List Event, written fd (w ++ [e]) =
        written fd w ++ written fd [e] := by
      intro w
      cases e <;> simp [written, List.foldl_append]
      split <;> simp
    rw [hsnoc, hsnoc, ih, List.append_assoc]

/-- C6 (as stated, refuted): `send` accepts 7 of the 15 bytes and does not fail; the
server calls `send` once, closes the connection and is back at `accept`, with only
"Hello, " written. -/
theorem server_short_send_not_completed :
    (run (init 0 []) (oneClient 7)).halt = none ∧
    (run (init 0 []) (oneClient 7)).loc = .acceptCall ∧
    (run (init 0 []) (oneClient 7)).trace =
      [ Event.socket 3, Event.bind 3 6000 0, Event.listen 3 5 0, Event.signal 2 0,
        Event.print runningLine,
        Event.accept 3 4, Event.print (incomingLine loopback),
        Event.send 4 "Hello, Client!\n".toList 7, Event.close 4 ] ∧
    written 4 (run (init 0 []) (oneClient 7)).trace = "Hello, ".toList ∧
    written 4 (run (init 0 []) (oneClient 7)).trace ≠ reply := by
  decide

/-- C6 (amended): for every accepted connection the loop body calls `send` exactly
once, with the whole 15-byte message, and then `close`, whatever `send` returned;
the bytes put on the connection are the first `k` bytes of the message when `send`
returns `k`, which is the whole message exactly when `k` is at least 15. -/
theorem server_sends_once (s : State) (hs : s.halt = none) (hl : s.loc = .acceptCall)
    (fd v k w : Int) (peer p1 p2 p3 : List Char) :
    (run s [.ret fd peer, .ret v p1, .ret k p2, .ret w p3]).trace =
      s.trace ++ [ Event.accept s.serverSocket fd,
        Event.print (incomingLine (if 0 ≤ fd then peer else s.dest)),
        Event.send fd "Hello, Client!\n".toList k, Event.close fd ] ∧
    sends (run s [.ret fd peer, .ret v p1, .ret k p2, .ret w p3]).trace =
      sends s.trace ++ [Event.send fd reply k] ∧
    written fd (run s [.ret fd peer, .ret v p1, .ret k p2, .ret w p3]).trace =
      written fd s.trace ++ accepted reply k ∧
    reply.length = 15 ∧
    (accepted reply k = reply ↔ 15 ≤ k) := by
  have hr : reply = "Hello, Client!\n".toList := by decide
  have hlen : reply.length = 15 := by decide
  rw [iteration_body s hs hl]
  refine ⟨?_, ?_, ?_, hlen, ?_⟩
  · simp only [hr]
  · simp [sends]
  · simp only [written_append]
    simp [written]
  · unfold accepted
    rw [List.take_eq_self_iff, hlen]
    omega

/-- Witness for C6: the state after a start-up in which every call succeeds. -/
theorem server_sends_once_witness :
    ((run (init 0 []) setupOk).halt = none ∧ (run (init 0 []) setupOk).loc = .acceptCall) ∧
    written 4 (run (run (init 0 []) setupOk)
        [.ret 4 loopback, .ret 0 [], .ret 7 [], .ret 0 []]).trace =
      written 4 (run (init 0 []) setupOk).trace ++ accepted reply 7 :=
  ⟨⟨by decide, by decide⟩,
   (server_sends_once (run (init 0 []) setupOk) (by decide) (by decide)
      4 0 7 0 loopback [] [] []).2.2.1⟩

/-- C8 (as stated, refuted): in an iteration whose `send` returns -1, and in one
whose `accept` returns -1, the only text printed is the usual line about the
incoming connection, the same as when `send` succeeds: no error is logged. -/
theorem server_send_failure_not_logged :
    prints (run (init 0 []) (oneClient (-1))).trace = [runningLine, incomingLine loopback] ∧
    prints (run (init 0 []) (oneClient (-1))).trace =
      prints (run (init 0 []) (oneClient 15)).trace ∧
    prints (run (init 0 []) acceptFailInputs).trace = [runningLine, incomingLine []] := by
  decide

/-- C8 (amended): from any reachable state at the `accept` call, one iteration,
whatever `accept` and `send` return (-1 included), prints the line about the
incoming connection and nothing else, calls `send` with the constant message and
`close` on the value `accept` returned, leaves `running`, `serverSocket` and the
handler unchanged and is back at the `accept` call, still running; and every `send`
of the continued run carries the same constant message. -/
theorem server_iteration_isolated (c : Int) (d : List Char) (inputs : List Input)
    (hs : (run (init c d) inputs).halt = none)
    (hl : (run (init c d) inputs).loc = .acceptCall)
    (fd v k w x : Int) (peer p1 p2 p3 p4 : List Char) (more : List Input) :
    (run (run (init c d) inputs)
        [.ret fd peer, .ret v p1, .ret k p2, .ret w p3, .ret x p4]).halt = none ∧
    (run (run (init c d) inputs)
        [.ret fd peer, .ret v p1, .ret k p2, .ret w p3, .ret x p4]).loc = .acceptCall ∧
    (run (run (init c d) inputs)
        [.ret fd peer, .ret v p1, .ret k p2, .ret w p3, .ret x p4]).running =
      (run (init c d) inputs).running ∧
    (run (run (init c d) inputs)
        [.ret fd peer, .ret v p1, .ret k p2, .ret w p3, .ret x p4]).serverSocket =
      (run (init c d) inputs).serverSocket ∧
    (run (run (init c d) inputs)
        [.ret fd peer, .ret v p1, .ret k p2, .ret w p3, .ret x p4]).handler =
      (run (init c d) inputs).handler ∧
    (run (run (init c d) inputs)
        [.ret fd peer, .ret v p1, .ret k p2, .ret w p3, .ret x p4]).trace =
      (run (init c d) inputs).trace ++
        [ Event.accept (run (init c d) inputs).serverSocket fd,
          Event.print (incomingLine (if 0 ≤ fd then peer else (run (init c d) inputs).dest)),
          Event.send fd "Hello, Client!\n".toList k, Event.close fd ] ∧
    (∀ fd1 data k1, Event.send fd1 data k1 ∈
        (run (run (run (init c d) inputs)
          [.ret fd peer, .ret v p1, .ret k p2, .ret w p3, .ret x p4]) more).trace →
      data = "Hello, Client!\n".toList) := by
  have hr : reply = "Hello, Client!\n".toList := by decide
  obtain ⟨_, _, _, h4⟩ := ctlInv_run inputs (init c d) (ctlInv_init c d)
  have hrun : (run (init c d) inputs).running ≠ 0 := by
    have := h4 hs
    unfold LocInv at this
    rw [hl] at this
    exact this.2
  have hsplit : run (run (init c d) inputs)
      [.ret fd peer, .ret v p1, .ret k p2, .ret w p3, .ret x p4] =
      step (run (run (init c d) inputs) [.ret fd peer, .ret v p1, .ret k p2, .ret w p3])
        (.ret x p4) := rfl
  refine ⟨?_, ?_, ?_, ?_, ?_, ?_, ?_⟩
  · rw [hsplit, iteration_body _ hs hl]; simp [step, exec, hs, hrun]
  · rw [hsplit, iteration_body _ hs hl]; simp [step, exec, hs, hrun]
  · rw [hsplit, iteration_body _ hs hl]; simp [step, exec, hs, hrun]
  · rw [hsplit, iteration_body _ hs hl]; simp [step, exec, hs, hrun]
  · rw [hsplit, iteration_body _ hs hl]; simp [step, exec, hs, hrun]
  · rw [hsplit, iteration_body _ hs hl]; simp [step, exec, hs, hrun, hr]
  · intro fd1 data k1 hm
    have hcat : run (run (run (init c d) inputs)
        [.ret fd peer, .ret v p1, .ret k p2, .ret w p3, .ret x p4]) more =
        run (init c d) (inputs ++
          [.ret fd peer, .ret v p1, .ret k p2, .ret w p3, .ret x p4] ++ more) := by
      simp [run, List.foldl_append]
    rw [hcat] at hm
    obtain ⟨⟨_, h2, _⟩, _⟩ := connInv_run (inputs ++
      [.ret fd peer, .ret v p1, .ret k p2, .ret w p3, .ret x p4] ++ more)
      (init c d) (connInv_init c d)
    rw [h2 fd1 data k1 hm, hr]

/-- Witness for C8: after start-up, an iteration in which `send` returns -1. -/
theorem server_iteration_isolated_witness :
    ((run (init 0 []) setupOk).halt = none ∧ (run (init 0 []) setupOk).loc = .acceptCall) ∧
    (run (run (init 0 []) setupOk)
        [.ret 4 loopback, .ret 0 [], .ret (-1) [], .ret 0 [], .ret 0 []]).loc = .acceptCall :=
  ⟨⟨by decide, by decide⟩,
   (server_iteration_isolated 0 [] setupOk (by decide) (by decide)
      4 0 (-1) 0 0 loopback [] [] [] [] []).2.1⟩

end Server

end BerkeleySocket
